import Mathlib

/-!
# Verification of the Cosmopolitan Address Sanitizer runtime (libc/log/asan.c)

Shallow embedding of the shadow-memory engine and instrumented allocator of
`libc/log/asan.c`.  Application addresses and sizes are natural numbers
(`size_t` arithmetic is taken modulo `2^64` where overflow matters); shadow
memory is a total function from shadow addresses to signed byte values
(`Int`); the backing allocator (`dlmemalign`, `dlmalloc_usable_size`,
`dlfree`) is external and appears as an oracle argument.
-/

/-- Shadow memory: a map from shadow-byte addresses to signed byte values. -/
def Shadow : Type := Nat → Int

/-- Write one shadow byte (`*s = v`). -/
def writeSh (sh : Shadow) (i : Nat) (v : Int) : Shadow :=
  fun j => if j = i then v else sh j

/-- `memset(s, v, n)` on shadow memory. -/
def memsetSh (sh : Shadow) (i : Nat) (v : Int) (n : Nat) : Shadow :=
  fun j => if i ≤ j ∧ j < i + n then v else sh j

/-- Byte memory of the application (`char` valued). -/
def Mem : Type := Nat → Int

/-- `memset(p, v, n)` on application memory. -/
def memsetM (m : Mem) (dst : Nat) (v : Int) (n : Nat) : Mem :=
  fun j => if dst ≤ j ∧ j < dst + n then v else m j

/-- `memcpy(dst, src, n)` on application memory. -/
def memcpyM (m : Mem) (dst src n : Nat) : Mem :=
  fun j => if dst ≤ j ∧ j < dst + n then m (src + (j - dst)) else m j

/-- Modelled from the spec: `kAsanMagic` lives in `libc/log/asan.h`, which is
not under `src/`; the spec fixes the shadow offset to `0x7fff8000`. -/
def kAsanMagic : Nat := 0x7fff8000

/-- `SHADOW(a) = (a >> 3) + kAsanMagic`, the shadow address covering `a`. -/
def SHADOW (a : Nat) : Nat := a / 8 + kAsanMagic

/-- `ROUNDUP(x, 8)` from libc/macros.h. -/
def ROUNDUP8 (x : Nat) : Nat := (x + 7) / 8 * 8

/-- `ROUNDDOWN(x, 8)` from libc/macros.h. -/
def ROUNDDOWN8 (x : Nat) : Nat := x / 8 * 8

/-- 64-bit wraparound subtraction: `size_t` difference `x - y`. -/
def sub64 (x y : Nat) : Nat := (2 ^ 64 + x - y % 2 ^ 64) % 2 ^ 64

/-- Modelled from the spec: the poison palette lives in `libc/log/asan.h`,
which is not under `src/`; the spec only requires each kind to be a distinct
negative shadow-byte value. -/
def kAsanHeapFree : Int := -1

/-- Modelled from the spec: distinct negative poison kind (see `kAsanHeapFree`). -/
def kAsanStackFree : Int := -2

/-- Modelled from the spec: distinct negative poison kind (see `kAsanHeapFree`). -/
def kAsanRelocated : Int := -3

/-- Modelled from the spec: distinct negative poison kind (see `kAsanHeapFree`). -/
def kAsanHeapUnderrun : Int := -4

/-- Modelled from the spec: distinct negative poison kind (see `kAsanHeapFree`). -/
def kAsanHeapOverrun : Int := -5

/-- Modelled from the spec: distinct negative poison kind (see `kAsanHeapFree`). -/
def kAsanGlobalOverrun : Int := -6

/-- Modelled from the spec: distinct negative poison kind (see `kAsanHeapFree`). -/
def kAsanGlobalUnregistered : Int := -7

/-- Modelled from the spec: distinct negative poison kind (see `kAsanHeapFree`). -/
def kAsanStackUnderrun : Int := -8

/-- Modelled from the spec: distinct negative poison kind (see `kAsanHeapFree`). -/
def kAsanStackOverrun : Int := -9

/-- Modelled from the spec: distinct negative poison kind (see `kAsanHeapFree`). -/
def kAsanAllocaOverrun : Int := -10

/-- Modelled from the spec: distinct negative poison kind (see `kAsanHeapFree`). -/
def kAsanUnscoped : Int := -11

/-- `__asan_dscribe_free_poison` (asan.c line 112). -/
def __asan_dscribe_free_poison (c : Int) : String :=
  if c = kAsanHeapFree then "heap double free"
  else if c = kAsanRelocated then "free after relocate"
  else if c = kAsanStackFree then "stack double free"
  else "invalid pointer"

/-- The quarantine ring `struct AsanMorgue` (asan.c line 105): a cursor and
16 pointer slots; the null pointer is `0`. -/
structure AsanMorgue where
  i : Fin 16
  p : Fin 16 → Nat

/-- The zero-initialized static morgue. -/
def morgueEmpty : AsanMorgue := ⟨0, fun _ => 0⟩

/-- `__asan_morgue_add` (asan.c lines 191-198): return the evicted slot
value, store the new pointer, advance the cursor (masked with `& 15`). -/
def morgueAdd (m : AsanMorgue) (q : Nat) : Nat × AsanMorgue :=
  (m.p m.i, ⟨m.i + 1, fun j => if j = m.i then q else m.p j⟩)

/-- Run `__asan_morgue_add` over a list of freed pointers, collecting the
values handed to the backing `dlfree`. -/
def morgueRun : AsanMorgue → List Nat → List Nat × AsanMorgue
  | m, [] => ([], m)
  | m, q :: qs =>
    let step := morgueAdd m q
    let rest := morgueRun step.2 qs
    (step.1 :: rest.1, rest.2)

/-- The shadow writes of `__asan_allocate` (asan.c lines 217-233) once the
backing `dlmemalign` has returned the non-null pointer `p`. -/
def __asan_allocate_shadow (sh : Shadow) (p size : Nat)
    (underrun overrun : Int) : Shadow :=
  let s := SHADOW (p - 16)
  let q := size / 8
  let r := size % 8
  let sh3 := memsetSh (writeSh (writeSh sh s underrun) (s + 1) underrun) (s + 2) 0 q
  if r ≠ 0 then
    writeSh (writeSh (writeSh sh3 (s + 2 + q) (r : Int)) (s + 3 + q) overrun)
      (s + 4 + q) overrun
  else
    writeSh (writeSh sh3 (s + 2 + q) overrun) (s + 3 + q) overrun

/-- The mutable state the allocator touches: shadow memory, application
memory and the quarantine ring. -/
structure MachineState where
  shadow : Shadow
  mem : Mem
  morgue : AsanMorgue

/-- `__asan_allocate` (asan.c lines 217-233).  `oracle` is the result of the
backing `dlmemalign(align, ROUNDUP(size, 8) + 16)` call (`none` = null).
Returns the user pointer (0 = null) and the new state. -/
def __asan_allocate (st : MachineState) (oracle : Option Nat) (size : Nat)
    (underrun overrun : Int) : Nat × MachineState :=
  match oracle with
  | none => (0, st)
  | some p =>
    (p, { st with shadow := __asan_allocate_shadow st.shadow p size underrun overrun })

/-- `__asan_memalign` (asan.c lines 279-281). -/
def __asan_memalign (st : MachineState) (oracle : Option Nat) (size : Nat) :
    Nat × MachineState :=
  __asan_allocate st oracle size kAsanHeapUnderrun kAsanHeapOverrun

/-- `__asan_malloc` (asan.c lines 283-285): `memalign(16, size)`. -/
def __asan_malloc (st : MachineState) (oracle : Option Nat) (size : Nat) :
    Nat × MachineState :=
  __asan_memalign st oracle size

/-- The fault produced by `__asan_report_deallocate_fault` (asan.c lines
162-173): faulting address, shadow byte, diagnostic text, exit status. -/
structure DeallocFault where
  addr : Nat
  byte : Int
  msg : String
  status : Nat

/-- `__asan_deallocate` (asan.c lines 235-243).  `usable` is the backing
`dlmalloc_usable_size`.  On the fault path the runtime dies (modelled as
`Except.error`); otherwise it poisons `usable p / 8` shadow bytes with
`kind`, quarantines `p` and returns the evicted pointer that is handed to
the backing `dlfree` (0 = null). -/
def __asan_deallocate (st : MachineState) (usable : Nat → Nat) (p : Nat)
    (kind : Int) : Except DeallocFault (MachineState × Nat) :=
  let s := st.shadow (SHADOW p)
  if (s < 0 ∧ s ≠ kAsanHeapOverrun) ∨ 8 ≤ s then
    .error ⟨p, s, __asan_dscribe_free_poison s, 66⟩
  else
    let step := morgueAdd st.morgue p
    let sh2 := memsetSh st.shadow (SHADOW p) kind (usable p / 8)
    .ok ({ st with shadow := sh2, morgue := step.2 }, step.1)

/-- `__asan_free` (asan.c lines 274-277): null is a no-op. -/
def __asan_free (st : MachineState) (usable : Nat → Nat) (p : Nat) :
    Except DeallocFault (MachineState × Nat) :=
  if p = 0 then .ok (st, 0) else __asan_deallocate st usable p kAsanHeapFree

/-- The saturated request size of `__asan_calloc` (asan.c line 290):
`__builtin_mul_overflow` detection with `size = -1` on overflow. -/
def callocRequest (n m : Nat) : Nat :=
  if 2 ^ 64 ≤ n * m then 2 ^ 64 - 1 else n * m

/-- `__asan_calloc` (asan.c lines 287-293). -/
def __asan_calloc (st : MachineState) (oracle : Option Nat) (n m : Nat) :
    Nat × MachineState :=
  let size := callocRequest n m
  let res := __asan_malloc st oracle size
  if res.1 ≠ 0 then
    (res.1, { res.2 with mem := memsetM res.2.mem res.1 0 size })
  else res

/-- `__asan_realloc` (asan.c lines 295-311).  Returns the new pointer, the
new state and the pointer handed to the backing `dlfree`. -/
def __asan_realloc (st : MachineState) (usable : Nat → Nat)
    (oracle : Option Nat) (p n : Nat) :
    Except DeallocFault (Nat × MachineState × Nat) :=
  if p ≠ 0 then
    if n ≠ 0 then
      let res := __asan_malloc st oracle n
      if res.1 ≠ 0 then
        let st2 := { res.2 with
          mem := memcpyM res.2.mem res.1 p (min n (usable p)) }
        match __asan_deallocate st2 usable p kAsanRelocated with
        | .error f => .error f
        | .ok (st3, r) => .ok (res.1, st3, r)
      else .ok (0, st, 0)
    else
      match __asan_free st usable p with
      | .error f => .error f
      | .ok (st2, r) => .ok (0, st2, r)
  else
    let res := __asan_malloc st oracle n
    .ok (res.1, res.2, 0)

/-- `__asan_poison_redzone` (asan.c lines 245-257). -/
def __asan_poison_redzone (sh : Shadow) (addr size redsize : Nat)
    (kind : Int) : Shadow :=
  let w := addr % 8
  let p := addr - w
  let a := w + size
  let b := w + redsize
  let s := SHADOW (p + a)
  if a % 8 ≠ 0 then
    memsetSh (writeSh sh s ((a % 8 : Nat) : Int)) (s + 1) kind
      (sub64 b (ROUNDUP8 a) / 8)
  else
    memsetSh sh s kind (sub64 b (ROUNDUP8 a) / 8)

/-- One iteration bound of the scan loop of `__asan_malloc_usable_size`
(asan.c lines 259-272), with explicit fuel: `none` means the loop has not
terminated within `fuel` iterations. -/
def usableGo (sh : Shadow) : Nat → Nat → Nat → Option Nat
  | 0, _, _ => none
  | fuel + 1, s, n =>
    if sh s = 0 then usableGo sh fuel (s + 1) (n + 8)
    else if 0 < sh s then usableGo sh fuel (s + 1) (n + (sh s).toNat % 8)
    else some n

/-- `__asan_malloc_usable_size` (asan.c lines 259-272) run with `fuel`
iterations of the scan loop. -/
def __asan_malloc_usable_size (sh : Shadow) (vp fuel : Nat) : Option Nat :=
  usableGo sh fuel (SHADOW vp) 0

/-- `struct AsanGlobal` (asan.c lines 94-103), restricted to the fields the
globals tracker reads. -/
structure AsanGlobal where
  addr : Nat
  size : Nat
  size_with_redzone : Nat

/-- `__asan_register_globals` (asan.c lines 321-327). -/
def __asan_register_globals (sh : Shadow) : List AsanGlobal → Shadow
  | [] => sh
  | g :: gs =>
    __asan_register_globals
      (__asan_poison_redzone sh g.addr g.size g.size_with_redzone
        kAsanGlobalOverrun) gs

/-- `__asan_unregister_globals` (asan.c lines 329-339). -/
def __asan_unregister_globals (sh : Shadow) : List AsanGlobal → Shadow
  | [] => sh
  | g :: gs =>
    let a := ROUNDUP8 g.addr
    let b := ROUNDDOWN8 (g.addr + g.size_with_redzone)
    let sh1 := if a < b then
        memsetSh sh (SHADOW a) kAsanGlobalUnregistered ((b - a) / 8)
      else sh
    __asan_unregister_globals sh1 gs

/-- `__asan_poison_stack_memory` (asan.c lines 357-360). -/
def __asan_poison_stack_memory (sh : Shadow) (p n : Nat) : Shadow :=
  let sh1 := memsetSh sh (SHADOW p) kAsanUnscoped (n / 8)
  if n % 8 ≠ 0 then writeSh sh1 (SHADOW (p + n)) ((8 - n % 8 : Nat) : Int)
  else sh1

/-- `__asan_unpoison_stack_memory` (asan.c lines 362-365). -/
def __asan_unpoison_stack_memory (sh : Shadow) (p n : Nat) : Shadow :=
  let sh1 := memsetSh sh (SHADOW p) 0 (n / 8)
  if n % 8 ≠ 0 then writeSh sh1 (SHADOW (p + n)) ((n % 8 : Nat) : Int)
  else sh1

/-- Events for the temporal claims: a shadow-byte store, the return of the
user pointer from an allocation entry point, the `dlfree` call, the fatal
report path. -/
inductive AsanEvent where
  | shadowWrite (idx : Nat) (val : Int)
  | retPtr (p : Nat)
  | backingFree (p : Nat)
  | fault (byte : Int)
deriving DecidableEq

/-- `true` exactly on shadow-byte stores. -/
def AsanEvent.isShadowWrite : AsanEvent → Bool
  | .shadowWrite _ _ => true
  | _ => false

/-- The shadow stores of `__asan_allocate` (asan.c lines 222-231) in program
order, for a successful backing pointer `p`. -/
def allocWriteEvents (p size : Nat) (underrun overrun : Int) : List AsanEvent :=
  let s := SHADOW (p - 16)
  let q := size / 8
  let r := size % 8
  [.shadowWrite s underrun, .shadowWrite (s + 1) underrun] ++
    (List.range q).map (fun k => .shadowWrite (s + 2 + k) 0) ++
    (if r ≠ 0 then [.shadowWrite (s + 2 + q) (r : Int)] else []) ++
    (if r ≠ 0 then [.shadowWrite (s + 3 + q) overrun, .shadowWrite (s + 4 + q) overrun]
     else [.shadowWrite (s + 2 + q) overrun, .shadowWrite (s + 3 + q) overrun])

/-- The event trace of `__asan_allocate` (asan.c lines 217-233): on backing
failure, return null at once; otherwise all shadow stores, then the return
of the user pointer. -/
def __asan_allocate_trace (oracle : Option Nat) (size : Nat)
    (underrun overrun : Int) : List AsanEvent :=
  match oracle with
  | none => [.retPtr 0]
  | some p => allocWriteEvents p size underrun overrun ++ [.retPtr p]

/-- The event trace of `__asan_deallocate` (asan.c lines 235-243): on the
fault path the process dies; otherwise the poisoning stores in program
order, then the `dlfree` of the pointer evicted from the morgue. -/
def __asan_deallocate_trace (sh : Shadow) (usable : Nat → Nat)
    (m : AsanMorgue) (p : Nat) (kind : Int) : List AsanEvent :=
  let s := sh (SHADOW p)
  if (s < 0 ∧ s ≠ kAsanHeapOverrun) ∨ 8 ≤ s then
    [.fault s]
  else
    (List.range (usable p / 8)).map (fun k => .shadowWrite (SHADOW p + k) kind) ++
      [.backingFree (morgueAdd m p).1]

/-- The all-addressable shadow state. -/
def shadowZero : Shadow := fun _ => 0

/-- A sample shadow state: a positive partial at the shadow base, a negative
byte two words later. -/
def shadowSample : Shadow :=
  fun j => if j = kAsanMagic then 2 else if j = kAsanMagic + 2 then -1 else 0

/-- Zero-initialized machine state with identity byte contents. -/
def stZero : MachineState := ⟨shadowZero, fun j => (j : Int) % 256, morgueEmpty⟩

/-- Machine state whose block at 32 has the positive partial head shadow
byte 5 (as after `malloc(5)`), with identity byte contents. -/
def stPartialHead : MachineState :=
  ⟨fun j => if j = SHADOW 32 then 5 else 0, fun j => (j : Int) % 256, morgueEmpty⟩

/-- The success state of `__asan_deallocate`: shadow poisoned with `kind`
over `usable(p)/8` bytes, the pointer quarantined. -/
def deallocOkState (st : MachineState) (usable : Nat → Nat) (p : Nat)
    (kind : Int) : MachineState :=
  { st with shadow := memsetSh st.shadow (SHADOW p) kind (usable p / 8),
            morgue := (morgueAdd st.morgue p).2 }

/-- The intermediate state of a successful `realloc(p, n)` relocation to
`p2`, right after the new block's shadow is laid out and
`min(n, dlmalloc_usable_size(p))` bytes are copied. -/
def reallocMidState (st : MachineState) (usable : Nat → Nat) (p n p2 : Nat) :
    MachineState :=
  { st with
    shadow := __asan_allocate_shadow st.shadow p2 n kAsanHeapUnderrun kAsanHeapOverrun,
    mem := memcpyM st.mem p2 p (min n (usable p)) }

/-- The shadow span painted by `__asan_unregister_globals` for one entry:
from `shadow(roundUp(addr, 8))` for `(roundDown(addr + size_with_redzone, 8)
- roundUp(addr, 8)) / 8` bytes. -/
def covG (g : AsanGlobal) (j : Nat) : Prop :=
  SHADOW (ROUNDUP8 g.addr) ≤ j ∧
  j < SHADOW (ROUNDUP8 g.addr) +
    (ROUNDDOWN8 (g.addr + g.size_with_redzone) - ROUNDUP8 g.addr) / 8

/-- `true` exactly on the return-of-pointer event. -/
def eventIsRet : AsanEvent → Bool
  | .retPtr _ => true
  | _ => false

/-- `true` exactly on the backing `dlfree` event. -/
def eventIsFree : AsanEvent → Bool
  | .backingFree _ => true
  | _ => false

/-- Every shadow write of the trace occurs before every pointer return. -/
def writesBeforeRets (t : List AsanEvent) : Prop :=
  ∀ i j ev ev', t.get? i = some ev → t.get? j = some ev' →
    ev.isShadowWrite = true → eventIsRet ev' = true → i < j

/-- Every shadow write of the trace occurs before every backing free. -/
def writesBeforeFrees (t : List AsanEvent) : Prop :=
  ∀ i j ev ev', t.get? i = some ev → t.get? j = some ev' →
    ev.isShadowWrite = true → eventIsFree ev' = true → i < j

/-- Every shadow write of the trace occurs after every backing free (the
deallocation ordering the spec asserts). -/
def writesAfterFrees (t : List AsanEvent) : Prop :=
  ∀ i j ev ev', t.get? i = some ev → t.get? j = some ev' →
    ev.isShadowWrite = true → eventIsFree ev' = true → j < i

/-! ## Helper lemmas -/

theorem two64_lit : (2 : Nat) ^ 64 = 18446744073709551616 := by norm_num

theorem sub64_eq (x y : Nat) (h1 : y ≤ x) (h2 : x < 2 ^ 64) :
    sub64 x y = x - y := by
  have hy : y % 2 ^ 64 = y := Nat.mod_eq_of_lt (lt_of_le_of_lt h1 h2)
  unfold sub64
  rw [hy, two64_lit] at *
  omega

set_option maxHeartbeats 2000000 in
/-- Pointwise characterization of the shadow writes of `__asan_allocate`
for an aligned backing pointer. -/
theorem allocate_shadow_apply (sh : Shadow) (p size : Nat) (u o : Int)
    (hp8 : p % 8 = 0) (hp : 16 ≤ p) (j : Nat) :
    __asan_allocate_shadow sh p size u o j =
      if j = SHADOW p - 2 ∨ j = SHADOW p - 1 then u
      else if SHADOW p ≤ j ∧ j < SHADOW p + size / 8 then 0
      else if size % 8 ≠ 0 ∧ j = SHADOW p + size / 8 then ((size % 8 : Nat) : Int)
      else if j = SHADOW p + (size + 7) / 8 ∨ j = SHADOW p + (size + 7) / 8 + 1 then o
      else sh j := by
  have hm : kAsanMagic = 2147450880 := rfl
  simp only [__asan_allocate_shadow]
  split <;>
  · simp only [writeSh, memsetSh, SHADOW, hm]
    split_ifs <;> first | rfl | omega

/-! ## C1 — heap allocation shadow layout -/

/-- C1 counterexample: for `malloc(13)` returning backing pointer 32, offset
13 lies in `[n, n+16)` but its covering shadow byte is the positive partial
`5`, not `kAsanHeapOverrun`, refuting the claim that all 16 offsets in
`[n, n+15]` probe as `HeapOverrun`. -/
theorem c1_overrun_counterexample :
    ¬ (∀ i, i < 13 + 16 → 13 ≤ i →
        __asan_allocate_shadow shadowZero 32 13 kAsanHeapUnderrun kAsanHeapOverrun
          (SHADOW (32 + i)) = kAsanHeapOverrun) ∧
    __asan_allocate_shadow shadowZero 32 13 kAsanHeapUnderrun kAsanHeapOverrun
      (SHADOW (32 + 13)) = 5 := by
  decide

/-- C1 (amended): for a heap allocation whose backing pointer `p` is
16-byte aligned (and at least 16): every offset `i ∈ [0, n)` probes as
addressable (shadow byte 0 or a positive partial `≥ i % 8 + 1`); the 16
bytes at offsets `[-16, -1]` are covered by two shadow bytes equal to
`kAsanHeapUnderrun`; the offsets in `[roundUp(n, 8), n + 15]` have shadow
byte exactly `kAsanHeapOverrun`; and when `n % 8 ≠ 0` the offsets in
`[n, roundUp(n, 8))` are covered by the positive partial byte `n % 8`,
which the byte-granularity probe rejects since `i % 8 ≥ n % 8` there. -/
theorem c1_heap_shadow_layout (sh : Shadow) (p n : Nat)
    (hp16 : p % 16 = 0) (hp : 16 ≤ p) :
    (∀ i, i < n →
      __asan_allocate_shadow sh p n kAsanHeapUnderrun kAsanHeapOverrun (SHADOW (p + i)) = 0 ∨
      (0 < __asan_allocate_shadow sh p n kAsanHeapUnderrun kAsanHeapOverrun (SHADOW (p + i)) ∧
        ((i % 8 : Nat) : Int) + 1 ≤
          __asan_allocate_shadow sh p n kAsanHeapUnderrun kAsanHeapOverrun (SHADOW (p + i)))) ∧
    (∀ i, 1 ≤ i → i ≤ 16 →
      __asan_allocate_shadow sh p n kAsanHeapUnderrun kAsanHeapOverrun (SHADOW (p - i)) =
        kAsanHeapUnderrun) ∧
    (∀ i, ROUNDUP8 n ≤ i → i < n + 16 →
      __asan_allocate_shadow sh p n kAsanHeapUnderrun kAsanHeapOverrun (SHADOW (p + i)) =
        kAsanHeapOverrun) ∧
    (n % 8 ≠ 0 → ∀ i, n ≤ i → i < ROUNDUP8 n →
      __asan_allocate_shadow sh p n kAsanHeapUnderrun kAsanHeapOverrun (SHADOW (p + i)) =
        ((n % 8 : Nat) : Int) ∧
      ((n % 8 : Nat) : Int) ≤ ((i % 8 : Nat) : Int)) := by
  have hp8 : p % 8 = 0 := by omega
  refine ⟨?_, ?_, ?_, ?_⟩
  · intro i hi
    rw [allocate_shadow_apply sh p n _ _ hp8 hp]
    simp only [SHADOW, kAsanMagic, ROUNDUP8] at *
    split_ifs <;> omega
  · intro i h1 h2
    rw [allocate_shadow_apply sh p n _ _ hp8 hp]
    simp only [SHADOW, kAsanMagic, ROUNDUP8] at *
    split_ifs <;> first | rfl | omega
  · intro i h1 h2
    rw [allocate_shadow_apply sh p n _ _ hp8 hp]
    simp only [SHADOW, kAsanMagic, ROUNDUP8] at *
    split_ifs <;> first | rfl | omega
  · intro hr i h1 h2
    rw [allocate_shadow_apply sh p n _ _ hp8 hp]
    simp only [SHADOW, kAsanMagic, ROUNDUP8] at *
    split_ifs <;> constructor <;> omega

/-- Witness for C1 at `p = 32`, `n = 13`: the hypotheses hold and the shadow
bytes from `shadow(p)` onward are `[0, 5, kAsanHeapOverrun, kAsanHeapOverrun]`. -/
theorem c1_heap_shadow_layout_witness :
    (32 % 16 = 0 ∧ 16 ≤ 32) ∧
    (∀ i, 1 ≤ i → i ≤ 16 →
      __asan_allocate_shadow shadowZero 32 13 kAsanHeapUnderrun kAsanHeapOverrun
        (SHADOW (32 - i)) = kAsanHeapUnderrun) ∧
    (∀ i, ROUNDUP8 13 ≤ i → i < 13 + 16 →
      __asan_allocate_shadow shadowZero 32 13 kAsanHeapUnderrun kAsanHeapOverrun
        (SHADOW (32 + i)) = kAsanHeapOverrun) ∧
    ((List.range 4).map (fun k =>
        __asan_allocate_shadow shadowZero 32 13 kAsanHeapUnderrun kAsanHeapOverrun
          (SHADOW 32 + k)) =
      [0, 5, kAsanHeapOverrun, kAsanHeapOverrun]) := by
  refine ⟨⟨rfl, by norm_num⟩, ?_, ?_, by decide⟩
  · exact (c1_heap_shadow_layout shadowZero 32 13 rfl (by norm_num)).2.1
  · exact (c1_heap_shadow_layout shadowZero 32 13 rfl (by norm_num)).2.2.1

/-! ## C2 — redzone poisoning -/

set_option maxHeartbeats 1000000 in
/-- Pointwise characterization of `__asan_poison_redzone` when the redzone
size does not underflow (`roundUp(a, 8) ≤ b`) and stays inside `size_t`. -/
theorem poison_redzone_apply (sh : Shadow) (addr size redsize : Nat)
    (kind : Int) (j : Nat)
    (hb : ROUNDUP8 (addr % 8 + size) ≤ addr % 8 + redsize)
    (h64 : addr % 8 + redsize < 2 ^ 64) :
    __asan_poison_redzone sh addr size redsize kind j =
      if (addr % 8 + size) % 8 ≠ 0 ∧
          j = addr / 8 + kAsanMagic + (addr % 8 + size) / 8 then
        (((addr % 8 + size) % 8 : Nat) : Int)
      else if addr / 8 + kAsanMagic + (addr % 8 + size + 7) / 8 ≤ j ∧
          j < addr / 8 + kAsanMagic + (addr % 8 + size + 7) / 8 +
            (addr % 8 + redsize - ROUNDUP8 (addr % 8 + size)) / 8 then
        kind
      else sh j := by
  have hsub : sub64 (addr % 8 + redsize) (ROUNDUP8 (addr % 8 + size)) =
      addr % 8 + redsize - ROUNDUP8 (addr % 8 + size) := sub64_eq _ _ hb h64
  have hm : kAsanMagic = 2147450880 := rfl
  simp only [__asan_poison_redzone, hsub]
  split <;>
  · simp only [writeSh, memsetSh, SHADOW, hm, ROUNDUP8] at *
    split_ifs <;> first | rfl | omega

/-- C2 counterexample: for `poison_redzone(addr = 0, size = 5, redsize =
37)` we have `a = 5`, `b = 37`; the claim predicts `(roundUp(37,8) -
roundUp(5,8))/8 = 4` poisoned shadow bytes starting at the shadow byte of
offset 8, but the code writes only `(37 - 8) >> 3 = 3`: the fourth byte is
untouched. -/
theorem c2_count_counterexample :
    (ROUNDUP8 37 - ROUNDUP8 5) / 8 = 4 ∧
    ¬ (∀ k, k < (ROUNDUP8 37 - ROUNDUP8 5) / 8 →
        __asan_poison_redzone shadowZero 0 5 37 kAsanGlobalOverrun
          (SHADOW (0 + ROUNDUP8 5) + k) = kAsanGlobalOverrun) ∧
    __asan_poison_redzone shadowZero 0 5 37 kAsanGlobalOverrun
      (SHADOW (0 + ROUNDUP8 5) + 3) = 0 := by
  refine ⟨rfl, ?_, by decide⟩
  intro h
  have := h 3 (by decide)
  revert this
  decide

/-- C2 (amended): for `poison_redzone(addr, size, redsize, kind)` with
`w = addr % 8`, `a = w + size`, `b = w + redsize`, provided `roundUp(a, 8)
≤ b < 2^64`: if `a % 8 ≠ 0` the partial byte `a % 8` is written at the
shadow byte covering `addr + size`; then exactly
`(b - roundUp(a, 8)) / 8` consecutive shadow bytes starting at the shadow
byte of word offset `roundUp(a, 8)` are set to `kind`; every other shadow
byte is untouched. -/
theorem c2_poison_redzone_spec (sh : Shadow) (addr size redsize : Nat)
    (kind : Int)
    (hb : ROUNDUP8 (addr % 8 + size) ≤ addr % 8 + redsize)
    (h64 : addr % 8 + redsize < 2 ^ 64) :
    ((addr % 8 + size) % 8 ≠ 0 →
      __asan_poison_redzone sh addr size redsize kind (SHADOW (addr + size)) =
        (((addr % 8 + size) % 8 : Nat) : Int)) ∧
    (∀ k, k < (addr % 8 + redsize - ROUNDUP8 (addr % 8 + size)) / 8 →
      __asan_poison_redzone sh addr size redsize kind
        (SHADOW (addr - addr % 8 + ROUNDUP8 (addr % 8 + size)) + k) = kind) ∧
    (∀ j, ((addr % 8 + size) % 8 ≠ 0 → j ≠ SHADOW (addr + size)) →
      (j < SHADOW (addr - addr % 8 + ROUNDUP8 (addr % 8 + size)) ∨
        SHADOW (addr - addr % 8 + ROUNDUP8 (addr % 8 + size)) +
          (addr % 8 + redsize - ROUNDUP8 (addr % 8 + size)) / 8 ≤ j) →
      __asan_poison_redzone sh addr size redsize kind j = sh j) := by
  have hm : kAsanMagic = 2147450880 := rfl
  refine ⟨?_, ?_, ?_⟩
  · intro hr
    rw [poison_redzone_apply sh addr size redsize kind _ hb h64]
    simp only [SHADOW, kAsanMagic, ROUNDUP8] at *
    split_ifs <;> first | rfl | omega
  · intro k hk
    rw [poison_redzone_apply sh addr size redsize kind _ hb h64]
    simp only [SHADOW, kAsanMagic, ROUNDUP8] at *
    split_ifs <;> first | rfl | omega
  · intro j hj1 hj2
    rw [poison_redzone_apply sh addr size redsize kind _ hb h64]
    simp only [SHADOW, kAsanMagic, ROUNDUP8] at *
    split_ifs with h1 h2
    · exfalso
      have hne := hj1 h1.1
      omega
    · omega
    · rfl

/-- Witness for C2 at `addr = 4`, `size = 9`, `redsize = 35` (so `w = 4`,
`a = 13`, `b = 39`): the partial byte 5 lands at the shadow byte covering
address 13, three `kind` bytes follow, and the byte after them is untouched. -/
theorem c2_poison_redzone_spec_witness :
    ROUNDUP8 (4 % 8 + 9) ≤ 4 % 8 + 35 ∧ 4 % 8 + 35 < 2 ^ 64 ∧
    __asan_poison_redzone shadowZero 4 9 35 kAsanGlobalOverrun (SHADOW (4 + 9)) = 5 ∧
    __asan_poison_redzone shadowZero 4 9 35 kAsanGlobalOverrun
      (SHADOW (4 - 4 % 8 + ROUNDUP8 (4 % 8 + 9)) + 1) = kAsanGlobalOverrun ∧
    __asan_poison_redzone shadowZero 4 9 35 kAsanGlobalOverrun
      (SHADOW (4 - 4 % 8 + ROUNDUP8 (4 % 8 + 9)) + 3) = shadowZero 0 := by
  have h := c2_poison_redzone_spec shadowZero 4 9 35 kAsanGlobalOverrun
    (by norm_num [ROUNDUP8]) (by norm_num)
  refine ⟨by norm_num [ROUNDUP8], by norm_num, ?_, ?_, ?_⟩
  · exact h.1 (by norm_num)
  · exact h.2.1 1 (by norm_num [ROUNDUP8])
  · have := h.2.2 (SHADOW (4 - 4 % 8 + ROUNDUP8 (4 % 8 + 9)) + 3)
      (fun _ => by decide) (by right; norm_num [ROUNDUP8, SHADOW, kAsanMagic])
    simpa [shadowZero] using this

/-! ## C3 — deallocation fault condition and double free -/


/-- C3: `deallocate(p, kind)` reports a deallocation fault with exit status
66 iff the shadow byte `s` at `shadow(p)` satisfies
`(s < 0 ∧ s ≠ HeapOverrun) ∨ s ≥ 8`; on the non-fault path it poisons and
quarantines; a second `free(p)` right after a successful `free(p)` (with
backing usable size ≥ 8) faults with the `heap double free` diagnostic; and
a shadow byte equal to `HeapOverrun` does not fault. -/
theorem c3_deallocate_fault_iff (st : MachineState) (usable : Nat → Nat) (p : Nat) :
    (∀ kind : Int,
      (∃ f, __asan_deallocate st usable p kind = .error f ∧
          f.byte = st.shadow (SHADOW p) ∧
          f.msg = __asan_dscribe_free_poison (st.shadow (SHADOW p)) ∧
          f.status = 66) ↔
        ((st.shadow (SHADOW p) < 0 ∧ st.shadow (SHADOW p) ≠ kAsanHeapOverrun) ∨
          8 ≤ st.shadow (SHADOW p))) ∧
    (¬ ((st.shadow (SHADOW p) < 0 ∧ st.shadow (SHADOW p) ≠ kAsanHeapOverrun) ∨
        8 ≤ st.shadow (SHADOW p)) →
      __asan_deallocate st usable p kAsanHeapFree =
        .ok (deallocOkState st usable p kAsanHeapFree, (morgueAdd st.morgue p).1)) ∧
    (¬ ((st.shadow (SHADOW p) < 0 ∧ st.shadow (SHADOW p) ≠ kAsanHeapOverrun) ∨
        8 ≤ st.shadow (SHADOW p)) → 8 ≤ usable p →
      ∃ f, __asan_deallocate (deallocOkState st usable p kAsanHeapFree) usable p
          kAsanHeapFree = .error f ∧
        f.byte = kAsanHeapFree ∧ f.msg = "heap double free" ∧ f.status = 66) ∧
    (st.shadow (SHADOW p) = kAsanHeapOverrun →
      ¬ ((st.shadow (SHADOW p) < 0 ∧ st.shadow (SHADOW p) ≠ kAsanHeapOverrun) ∨
        8 ≤ st.shadow (SHADOW p))) := by
  refine ⟨?_, ?_, ?_, ?_⟩
  · intro kind
    by_cases hc : (st.shadow (SHADOW p) < 0 ∧ st.shadow (SHADOW p) ≠ kAsanHeapOverrun) ∨
        8 ≤ st.shadow (SHADOW p)
    · refine ⟨fun _ => hc, fun _ =>
        ⟨⟨p, st.shadow (SHADOW p), __asan_dscribe_free_poison (st.shadow (SHADOW p)), 66⟩,
          ?_, rfl, rfl, rfl⟩⟩
      simp only [__asan_deallocate, if_pos hc]
    · refine ⟨fun hf => absurd ?_ hc, fun h => absurd h hc⟩
      obtain ⟨f, hf, -⟩ := hf
      simp only [__asan_deallocate, if_neg hc] at hf
      exact absurd hf (by simp)
  · intro hnc
    simp only [__asan_deallocate, if_neg hnc, deallocOkState]
  · intro hnc hu
    have hbyte : (deallocOkState st usable p kAsanHeapFree).shadow (SHADOW p) =
        kAsanHeapFree := by
      simp only [deallocOkState, memsetSh]
      rw [if_pos ⟨le_refl _, by omega⟩]
    refine ⟨⟨p, kAsanHeapFree, __asan_dscribe_free_poison kAsanHeapFree, 66⟩, ?_, rfl, rfl, rfl⟩
    simp only [__asan_deallocate, hbyte]
    rw [if_pos (by decide)]
  · intro hs
    rw [hs]
    decide

/-- Witness for C3: with an all-addressable shadow, backing usable size 24
and `p = 32`, `free(p)` succeeds and a second `free(p)` reports the
`heap double free` fault with status 66. -/
theorem c3_deallocate_fault_iff_witness :
    ¬ ((stZero.shadow (SHADOW 32) < 0 ∧ stZero.shadow (SHADOW 32) ≠ kAsanHeapOverrun) ∨
        8 ≤ stZero.shadow (SHADOW 32)) ∧
    8 ≤ (fun _ : Nat => 24) 32 ∧
    __asan_deallocate stZero (fun _ => 24) 32 kAsanHeapFree =
      .ok (deallocOkState stZero (fun _ => 24) 32 kAsanHeapFree,
        (morgueAdd stZero.morgue 32).1) ∧
    (∃ f, __asan_deallocate (deallocOkState stZero (fun _ => 24) 32 kAsanHeapFree)
        (fun _ => 24) 32 kAsanHeapFree = .error f ∧
      f.byte = kAsanHeapFree ∧ f.msg = "heap double free" ∧ f.status = 66) := by
  have h := c3_deallocate_fault_iff stZero (fun _ => 24) 32
  exact ⟨by decide, by norm_num, h.2.1 (by decide), h.2.2.1 (by decide) (by norm_num)⟩

/-! ## C4 — quarantine ring behaviour -/

/-- C4: starting from the zero-initialized morgue, 16 allocate+free cycles
hand only null pointers to the backing `dlfree`; on the 17th cycle exactly
the oldest freed pointer is handed back; and each `morgue_add` stores the
new pointer in the cursor slot, evicts exactly that slot's prior value and
leaves the other 15 slots unchanged. -/
theorem c4_morgue_ring (a : Fin 17 → Nat) :
    (morgueRun morgueEmpty
      [a 0, a 1, a 2, a 3, a 4, a 5, a 6, a 7, a 8, a 9, a 10, a 11, a 12,
        a 13, a 14, a 15]).1 = List.replicate 16 0 ∧
    (morgueRun morgueEmpty
      [a 0, a 1, a 2, a 3, a 4, a 5, a 6, a 7, a 8, a 9, a 10, a 11, a 12,
        a 13, a 14, a 15, a 16]).1 = List.replicate 16 0 ++ [a 0] ∧
    (∀ (m : AsanMorgue) (q : Nat),
      (morgueAdd m q).1 = m.p m.i ∧
      (morgueAdd m q).2.p m.i = q ∧
      ∀ j : Fin 16, j ≠ m.i → (morgueAdd m q).2.p j = m.p j) := by
  refine ⟨rfl, rfl, ?_⟩
  intro m q
  refine ⟨rfl, by simp [morgueAdd], ?_⟩
  intro j hj
  simp [morgueAdd, hj]

/-- Witness for C4: the slot-update clause applied to the empty morgue. -/
theorem c4_morgue_ring_witness :
    (3 : Fin 16) ≠ morgueEmpty.i ∧
    (morgueAdd morgueEmpty 7).2.p 3 = morgueEmpty.p 3 ∧
    (morgueAdd morgueEmpty 7).2.p morgueEmpty.i = 7 := by
  have h := (c4_morgue_ring (fun k => k)).2.2 morgueEmpty 7
  exact ⟨by decide, h.2.2 3 (by decide), h.2.1⟩

/-! ## C5 — stack poison/unpoison partial bytes -/

/-- C5 counterexample: `poison_stack_memory(0, 13)` writes the value
`8 - (13 % 8) = 3` at the shadow byte of `p + n`, and that byte is
positive, not negative as claimed. -/
theorem c5_partial_sign_counterexample :
    __asan_poison_stack_memory shadowZero 0 13 (SHADOW (0 + 13)) = 3 ∧
    ¬ __asan_poison_stack_memory shadowZero 0 13 (SHADOW (0 + 13)) < 0 := by
  decide

/-- C5 (amended): for `n % 8 ≠ 0`, after painting `n/8` shadow bytes at
`shadow(p)` with `Unscoped`, `poison_stack_memory(p, n)` writes the
*positive* value `8 - (n % 8)` at `shadow(p + n)` (first `8 - n % 8` bytes
of the trailing word remain addressable), while `unpoison_stack_memory(p,
n)` writes the positive partial `n % 8` there. -/
theorem c5_stack_partial_bytes (sh : Shadow) (p n : Nat) (hn : n % 8 ≠ 0) :
    __asan_poison_stack_memory sh p n (SHADOW (p + n)) = ((8 - n % 8 : Nat) : Int) ∧
    0 < ((8 - n % 8 : Nat) : Int) ∧
    (∀ k, k < n / 8 →
      __asan_poison_stack_memory sh p n (SHADOW p + k) = kAsanUnscoped) ∧
    __asan_unpoison_stack_memory sh p n (SHADOW (p + n)) = ((n % 8 : Nat) : Int) := by
  refine ⟨?_, by omega, ?_, ?_⟩
  · simp [__asan_poison_stack_memory, hn, writeSh]
  · intro k hk
    simp only [__asan_poison_stack_memory, hn, ne_eq, not_false_iff, if_true, ite_true,
      writeSh, memsetSh, SHADOW, kAsanMagic]
    rw [if_neg (by omega), if_pos (by omega)]
  · simp [__asan_unpoison_stack_memory, hn, writeSh]

/-- Witness for C5 at `p = 0`, `n = 13`: poison writes `+3`, unpoison
writes `+5`, and the first word is `Unscoped`. -/
theorem c5_stack_partial_bytes_witness :
    (13 % 8 ≠ 0) ∧
    __asan_poison_stack_memory shadowZero 0 13 (SHADOW (0 + 13)) = 3 ∧
    __asan_poison_stack_memory shadowZero 0 13 (SHADOW 0 + 0) = kAsanUnscoped ∧
    __asan_unpoison_stack_memory shadowZero 0 13 (SHADOW (0 + 13)) = 5 := by
  have h := c5_stack_partial_bytes shadowZero 0 13 (by norm_num)
  exact ⟨by norm_num, h.1, h.2.2.1 0 (by norm_num), h.2.2.2⟩

/-! ## C6 — realloc atomicity on failure, copy on success -/

/-- Shadow bytes outside the region written by `__asan_allocate` are
untouched. -/
theorem allocate_shadow_outside (sh : Shadow) (p size : Nat) (u o : Int)
    (j : Nat)
    (h : j < SHADOW (p - 16) ∨ SHADOW (p - 16) + size / 8 + 4 < j) :
    __asan_allocate_shadow sh p size u o j = sh j := by
  simp only [SHADOW] at h
  simp only [__asan_allocate_shadow]
  split <;>
  · simp only [writeSh, memsetSh, SHADOW]
    split_ifs <;> first | rfl | omega


/-- C6: for `realloc(p, n)` with `p ≠ 0`, `n ≠ 0`: if the backing
allocation fails, realloc returns null and the machine state — shadow,
contents and morgue — is exactly the input state; if it succeeds at a
(disjoint) block `p2` and the old head shadow byte passes the deallocation
check (`¬((s < 0 ∧ s ≠ HeapOverrun) ∨ 8 ≤ s)`, which holds for any live
head: 0 or a positive partial 1..7), `min(n, usable(p))` bytes are copied
to `p2` and the old block is then deallocated with poison kind
`kAsanRelocated`. -/
theorem c6_realloc_failure_atomic (st : MachineState) (usable : Nat → Nat)
    (p n p2 : Nat) (hp : p ≠ 0) (hn : n ≠ 0) :
    __asan_realloc st usable none p n = .ok (0, st, 0) ∧
    (p2 ≠ 0 →
      (SHADOW p < SHADOW (p2 - 16) ∨ SHADOW (p2 - 16) + n / 8 + 4 < SHADOW p) →
      ¬ ((st.shadow (SHADOW p) < 0 ∧ st.shadow (SHADOW p) ≠ kAsanHeapOverrun) ∨
        8 ≤ st.shadow (SHADOW p)) →
      __asan_realloc st usable (some p2) p n =
        .ok (p2,
          deallocOkState (reallocMidState st usable p n p2) usable p kAsanRelocated,
          (morgueAdd st.morgue p).1) ∧
      (∀ i, i < min n (usable p) →
        (deallocOkState (reallocMidState st usable p n p2) usable p
            kAsanRelocated).mem (p2 + i) = st.mem (p + i)) ∧
      (8 ≤ usable p →
        (deallocOkState (reallocMidState st usable p n p2) usable p
            kAsanRelocated).shadow (SHADOW p) = kAsanRelocated)) := by
  constructor
  · simp [__asan_realloc, __asan_malloc, __asan_memalign, __asan_allocate, hp, hn]
  · intro hp2 hdisj hnf
    refine ⟨?_, ?_, ?_⟩
    · have hmid2 : __asan_allocate_shadow st.shadow p2 n kAsanHeapUnderrun
          kAsanHeapOverrun (SHADOW p) = st.shadow (SHADOW p) :=
        allocate_shadow_outside st.shadow p2 n _ _ (SHADOW p) hdisj
      simp only [__asan_realloc, __asan_malloc, __asan_memalign, __asan_allocate]
      rw [if_pos hp, if_pos hn, if_pos hp2]
      simp only [__asan_deallocate, hmid2, reallocMidState, deallocOkState]
      rw [if_neg hnf]
    · intro i hi
      simp only [deallocOkState, reallocMidState, memcpyM]
      rw [if_pos ⟨by omega, by omega⟩]
      congr 1
      omega
    · intro hu
      simp only [deallocOkState, reallocMidState, memsetSh]
      rw [if_pos ⟨le_refl _, by omega⟩]

/-- Witness for C6 at `p = 32`, `n = 8`, `p2 = 128`, usable size 24, on a
state whose old-block head shadow byte is the positive partial `5` (as
after `malloc(5)`): the failure branch returns the untouched state, and the
success branch copies bytes and poisons the old head with
`kAsanRelocated`. -/
theorem c6_realloc_failure_atomic_witness :
    stPartialHead.shadow (SHADOW 32) = 5 ∧
    ¬ ((stPartialHead.shadow (SHADOW 32) < 0 ∧
        stPartialHead.shadow (SHADOW 32) ≠ kAsanHeapOverrun) ∨
      8 ≤ stPartialHead.shadow (SHADOW 32)) ∧
    __asan_realloc stPartialHead (fun _ => 24) none 32 8 =
      .ok (0, stPartialHead, 0) ∧
    __asan_realloc stPartialHead (fun _ => 24) (some 128) 32 8 =
      .ok (128,
        deallocOkState (reallocMidState stPartialHead (fun _ => 24) 32 8 128)
          (fun _ => 24) 32 kAsanRelocated,
        (morgueAdd stPartialHead.morgue 32).1) ∧
    (deallocOkState (reallocMidState stPartialHead (fun _ => 24) 32 8 128)
        (fun _ => 24) 32 kAsanRelocated).mem (128 + 3) =
      stPartialHead.mem (32 + 3) ∧
    (deallocOkState (reallocMidState stPartialHead (fun _ => 24) 32 8 128)
        (fun _ => 24) 32 kAsanRelocated).shadow (SHADOW 32) = kAsanRelocated := by
  have h := c6_realloc_failure_atomic stPartialHead (fun _ => 24) 32 8 128
    (by norm_num) (by norm_num)
  have h2 := h.2 (by norm_num)
    (by left; simp [SHADOW, kAsanMagic])
    (by decide)
  exact ⟨by decide, by decide, h.1, h2.1, h2.2.1 3 (by norm_num),
    h2.2.2 (by norm_num)⟩

/-! ## C7 — calloc overflow saturation and zeroing -/

/-- C7: `calloc(n, m)` checks the product for overflow and saturates the
request to `SIZE_MAX` on overflow; if the backing allocator rejects the
request the result is null and the state (shadow included) is unchanged,
with no diagnostic; on a successful non-overflowing allocation all `n * m`
body bytes are zeroed before the pointer is returned. -/
theorem c7_calloc_overflow (st : MachineState) (n m p : Nat) :
    (2 ^ 64 ≤ n * m → callocRequest n m = 2 ^ 64 - 1) ∧
    __asan_calloc st none n m = (0, st) ∧
    (n * m < 2 ^ 64 → p ≠ 0 →
      (__asan_calloc st (some p) n m).1 = p ∧
      ∀ i, i < n * m → (__asan_calloc st (some p) n m).2.mem (p + i) = 0) := by
  refine ⟨?_, ?_, ?_⟩
  · intro h
    simp only [callocRequest]
    rw [if_pos h]
  · simp [__asan_calloc, __asan_malloc, __asan_memalign, __asan_allocate]
  · intro h64 hp
    have hreq : callocRequest n m = n * m := by
      simp [callocRequest]
      omega
    have hc : __asan_calloc st (some p) n m =
        (p, { st with
          shadow := __asan_allocate_shadow st.shadow p (n * m) kAsanHeapUnderrun
            kAsanHeapOverrun,
          mem := memsetM st.mem p 0 (n * m) }) := by
      simp only [__asan_calloc, __asan_malloc, __asan_memalign, __asan_allocate, hreq]
      rw [if_pos hp]
    rw [hc]
    refine ⟨rfl, ?_⟩
    intro i hi
    show memsetM st.mem p 0 (n * m) (p + i) = 0
    simp only [memsetM]
    rw [if_pos ⟨by omega, by omega⟩]

/-- Witness for C7: `calloc(3, 5)` at backing pointer 64 returns 64 with the
15 body bytes zeroed; the saturation clause at `n = 2^63`, `m = 4`. -/
theorem c7_calloc_overflow_witness :
    (2 ^ 64 ≤ 2 ^ 63 * 4 ∧ callocRequest (2 ^ 63) 4 = 2 ^ 64 - 1) ∧
    __asan_calloc stZero none (2 ^ 63) 4 = (0, stZero) ∧
    (3 * 5 < 2 ^ 64 ∧ (__asan_calloc stZero (some 64) 3 5).1 = 64 ∧
      (__asan_calloc stZero (some 64) 3 5).2.mem (64 + 14) = 0) := by
  have hA := (c7_calloc_overflow stZero (2 ^ 63) 4 1).1 (by norm_num)
  have hB := (c7_calloc_overflow stZero (2 ^ 63) 4 1).2.1
  have hC := (c7_calloc_overflow stZero 3 5 64).2.2 (by norm_num) (by norm_num)
  exact ⟨⟨by norm_num, hA⟩, hB, by norm_num, hC.1, hC.2 14 (by norm_num)⟩

/-! ## C8 — globals unregister/register/unregister idempotence -/


/-- A shadow byte outside all entries' unregister spans is untouched by
`__asan_unregister_globals`. -/
theorem unreg_apply_not (gs : List AsanGlobal) : ∀ (sh : Shadow) (j : Nat),
    (∀ g ∈ gs, ¬ covG g j) →
    __asan_unregister_globals sh gs j = sh j := by
  induction gs with
  | nil => intro sh j _; rfl
  | cons g gs ih =>
    intro sh j h
    simp only [__asan_unregister_globals]
    split
    · rw [ih _ j (fun g' hg' => h g' (List.mem_cons_of_mem g hg'))]
      simp only [memsetSh]
      rw [if_neg ?hc]
      case hc =>
        have := h g (List.mem_cons_self g gs)
        simp only [covG, not_and, not_lt] at this ⊢
        omega
    · exact ih _ j (fun g' hg' => h g' (List.mem_cons_of_mem g hg'))

/-- A shadow byte inside some entry's unregister span is
`kAsanGlobalUnregistered` after `__asan_unregister_globals`. -/
theorem unreg_apply_mem (gs : List AsanGlobal) : ∀ (sh : Shadow) (j : Nat),
    (∃ g ∈ gs, covG g j) →
    __asan_unregister_globals sh gs j = kAsanGlobalUnregistered := by
  induction gs with
  | nil => intro sh j h; simp at h
  | cons g gs ih =>
    intro sh j h
    by_cases ht : ∃ g' ∈ gs, covG g' j
    · exact ih _ j ht
    · have hg : covG g j := by
        rcases h with ⟨g', hg', hc⟩
        rcases List.mem_cons.mp hg' with h1 | h1
        · exact h1 ▸ hc
        · exact absurd ⟨g', h1, hc⟩ ht
      have hnt : ∀ g' ∈ gs, ¬ covG g' j := fun g' hg' hc => ht ⟨g', hg', hc⟩
      simp only [__asan_unregister_globals]
      rw [unreg_apply_not gs _ j hnt]
      have hab : ROUNDUP8 g.addr < ROUNDDOWN8 (g.addr + g.size_with_redzone) := by
        rcases hg with ⟨hg1, hg2⟩
        by_contra hno
        omega
      rw [if_pos hab]
      simp only [memsetSh]
      exact if_pos hg

/-- `__asan_poison_redzone` on an 8-byte-aligned global with
`roundUp(size, 8) ≤ size_with_redzone < 2^64` writes only inside the
entry's unregister span. -/
theorem poison_redzone_outside (sh : Shadow) (g : AsanGlobal) (kind : Int)
    (j : Nat) (h8 : g.addr % 8 = 0)
    (hle : ROUNDUP8 g.size ≤ g.size_with_redzone)
    (h64 : g.size_with_redzone < 2 ^ 64) (hnc : ¬ covG g j) :
    __asan_poison_redzone sh g.addr g.size g.size_with_redzone kind j = sh j := by
  have hb : ROUNDUP8 (g.addr % 8 + g.size) ≤ g.addr % 8 + g.size_with_redzone := by
    simp only [ROUNDUP8] at *
    omega
  have hb64 : g.addr % 8 + g.size_with_redzone < 2 ^ 64 := by
    rw [two64_lit] at *
    omega
  rw [poison_redzone_apply sh _ _ _ kind j hb hb64]
  simp only [covG, SHADOW, ROUNDUP8, ROUNDDOWN8, kAsanMagic, not_and, not_lt]
    at hnc hle hb ⊢
  rw [two64_lit] at h64 hb64
  split_ifs <;> first | rfl | omega

/-- A shadow byte outside all entries' unregister spans is untouched by
`__asan_register_globals`, for well-formed entries. -/
theorem reg_apply_not (gs : List AsanGlobal) : ∀ (sh : Shadow) (j : Nat),
    (∀ g ∈ gs, g.addr % 8 = 0 ∧ ROUNDUP8 g.size ≤ g.size_with_redzone ∧
      g.size_with_redzone < 2 ^ 64) →
    (∀ g ∈ gs, ¬ covG g j) →
    __asan_register_globals sh gs j = sh j := by
  induction gs with
  | nil => intro sh j _ _; rfl
  | cons g gs ih =>
    intro sh j hg h
    simp only [__asan_register_globals]
    rw [ih _ j (fun g' hg' => hg g' (List.mem_cons_of_mem g hg'))
      (fun g' hg' => h g' (List.mem_cons_of_mem g hg'))]
    obtain ⟨h8, hle, h64⟩ := hg g (List.mem_cons_self g gs)
    exact poison_redzone_outside sh g _ j h8 hle h64 (h g (List.mem_cons_self g gs))

/-- C8 counterexample: for the single unaligned global `(addr = 4, size =
1, size_with_redzone = 32)` starting from the all-zero shadow, the
composite unregister-register-unregister leaves the partial byte `5` at the
shadow byte covering `addr + size`, while a single unregister leaves `0`
there: the two shadow states differ. -/
theorem c8_counterexample :
    __asan_unregister_globals
        (__asan_register_globals
          (__asan_unregister_globals shadowZero [⟨4, 1, 32⟩]) [⟨4, 1, 32⟩])
        [⟨4, 1, 32⟩] kAsanMagic = 5 ∧
    __asan_unregister_globals shadowZero [⟨4, 1, 32⟩] kAsanMagic = 0 ∧
    __asan_unregister_globals
        (__asan_register_globals
          (__asan_unregister_globals shadowZero [⟨4, 1, 32⟩]) [⟨4, 1, 32⟩])
        [⟨4, 1, 32⟩] kAsanMagic ≠
      __asan_unregister_globals shadowZero [⟨4, 1, 32⟩] kAsanMagic := by
  refine ⟨by decide, by decide, by decide⟩

/-- C8 (amended): for every global descriptor array whose entries have
8-byte-aligned `addr` and `roundUp(size, 8) ≤ size_with_redzone < 2^64`,
the sequence `unregister; register; unregister` produces exactly the same
shadow state as a single `unregister`. -/
theorem c8_unregister_idempotent (sh : Shadow) (gs : List AsanGlobal)
    (hg : ∀ g ∈ gs, g.addr % 8 = 0 ∧ ROUNDUP8 g.size ≤ g.size_with_redzone ∧
      g.size_with_redzone < 2 ^ 64) :
    ∀ j, __asan_unregister_globals
        (__asan_register_globals (__asan_unregister_globals sh gs) gs) gs j =
      __asan_unregister_globals sh gs j := by
  intro j
  by_cases h : ∃ g ∈ gs, covG g j
  · rw [unreg_apply_mem gs _ j h, unreg_apply_mem gs _ j h]
  · have hn : ∀ g ∈ gs, ¬ covG g j := fun g hgm hc => h ⟨g, hgm, hc⟩
    rw [unreg_apply_not gs _ j hn, reg_apply_not gs _ j hg hn,
      unreg_apply_not gs _ j hn]

/-- Witness for C8 on the aligned global `(addr = 8, size = 5,
size_with_redzone = 32)`: the composite equals the single unregister at the
first covered shadow byte and at the partial-byte position. -/
theorem c8_unregister_idempotent_witness :
    ((8 : Nat) % 8 = 0 ∧ ROUNDUP8 5 ≤ 32 ∧ (32 : Nat) < 2 ^ 64) ∧
    __asan_unregister_globals
        (__asan_register_globals
          (__asan_unregister_globals shadowZero [⟨8, 5, 32⟩]) [⟨8, 5, 32⟩])
        [⟨8, 5, 32⟩] (kAsanMagic + 1) =
      __asan_unregister_globals shadowZero [⟨8, 5, 32⟩] (kAsanMagic + 1) ∧
    __asan_unregister_globals
        (__asan_register_globals
          (__asan_unregister_globals shadowZero [⟨8, 5, 32⟩]) [⟨8, 5, 32⟩])
        [⟨8, 5, 32⟩] (kAsanMagic + 100) =
      __asan_unregister_globals shadowZero [⟨8, 5, 32⟩] (kAsanMagic + 100) := by
  have hg : ∀ g ∈ [(⟨8, 5, 32⟩ : AsanGlobal)], g.addr % 8 = 0 ∧
      ROUNDUP8 g.size ≤ g.size_with_redzone ∧ g.size_with_redzone < 2 ^ 64 := by
    intro g hgm
    simp only [List.mem_singleton] at hgm
    subst hgm
    refine ⟨rfl, by norm_num [ROUNDUP8], by norm_num⟩
  exact ⟨⟨rfl, by norm_num [ROUNDUP8], by norm_num⟩,
    c8_unregister_idempotent shadowZero [⟨8, 5, 32⟩] hg (kAsanMagic + 1),
    c8_unregister_idempotent shadowZero [⟨8, 5, 32⟩] hg (kAsanMagic + 100)⟩

/-! ## C9 — ordering of shadow writes -/






/-- In a trace of shadow writes followed by one non-write event, every
shadow write precedes every non-write. -/
theorem writes_then_event (ws : List AsanEvent) (e : AsanEvent)
    (hws : ∀ x ∈ ws, x.isShadowWrite = true) (he : e.isShadowWrite = false) :
    ∀ i j ev ev', (ws ++ [e]).get? i = some ev → (ws ++ [e]).get? j = some ev' →
      ev.isShadowWrite = true → ev'.isShadowWrite = false → i < j := by
  intro i j ev ev' hi hj hev hev'
  have hi_lt : i < ws.length + 1 := by
    by_contra h'
    rw [List.get?_eq_none.mpr (by simp; omega)] at hi
    cases hi
  have hj_lt : j < ws.length + 1 := by
    by_contra h'
    rw [List.get?_eq_none.mpr (by simp; omega)] at hj
    cases hj
  have hj_eq : j = ws.length := by
    by_contra hne
    have hj2 : j < ws.length := by omega
    rw [List.get?_append hj2] at hj
    have hmem : ev' ∈ ws := List.get?_mem hj
    rw [hws ev' hmem] at hev'
    cases hev'
  have hi_ne : i ≠ ws.length := by
    intro he2
    subst he2
    rw [List.get?_concat_length] at hi
    have : e = ev := by injection hi
    rw [← this] at hev
    rw [he] at hev
    cases hev
  omega

/-- The events of `allocWriteEvents` are all shadow writes. -/
theorem allocWriteEvents_all_writes (p size : Nat) (u o : Int) :
    ∀ x ∈ allocWriteEvents p size u o, x.isShadowWrite = true := by
  intro x hx
  cases x with
  | shadowWrite i v => rfl
  | retPtr pp =>
    exfalso
    by_cases hr : size % 8 = 0 <;> simp [allocWriteEvents, hr] at hx
  | backingFree pp =>
    exfalso
    by_cases hr : size % 8 = 0 <;> simp [allocWriteEvents, hr] at hx
  | fault b =>
    exfalso
    by_cases hr : size % 8 = 0 <;> simp [allocWriteEvents, hr] at hx

/-- C9 counterexample: for a concrete deallocation (all-addressable shadow,
usable size 24, `p = 32`), the first trace event is already a shadow write
and the backing free is the last event, so the claimed
"shadow writes happen after the backing free" ordering fails. -/
theorem c9_counterexample :
    (__asan_deallocate_trace shadowZero (fun _ => 24) morgueEmpty 32
      kAsanHeapFree).get? 0 = some (.shadowWrite (SHADOW 32) kAsanHeapFree) ∧
    (__asan_deallocate_trace shadowZero (fun _ => 24) morgueEmpty 32
      kAsanHeapFree).get? 3 = some (.backingFree 0) ∧
    ¬ writesAfterFrees (__asan_deallocate_trace shadowZero (fun _ => 24)
      morgueEmpty 32 kAsanHeapFree) := by
  refine ⟨by decide, by decide, ?_⟩
  intro h
  have h03 := h 0 3 (.shadowWrite (SHADOW 32) kAsanHeapFree) (.backingFree 0)
    (by decide) (by decide) (by decide) (by decide)
  omega

/-- C9 (amended): in allocation every shadow write happens before the user
pointer is returned (the return is the last event); in deallocation every
shadow write happens *before* — not after — the backing `dlfree`, which is
the last event of the non-fault trace (poison first, then quarantine
release). -/
theorem c9_shadow_write_ordering (p size : Nat) (u o : Int) (sh : Shadow)
    (usable : Nat → Nat) (m : AsanMorgue) (q : Nat) (kind : Int) :
    ((__asan_allocate_trace (some p) size u o).getLast? = some (.retPtr p) ∧
      writesBeforeRets (__asan_allocate_trace (some p) size u o)) ∧
    (¬ ((sh (SHADOW q) < 0 ∧ sh (SHADOW q) ≠ kAsanHeapOverrun) ∨
        8 ≤ sh (SHADOW q)) →
      (__asan_deallocate_trace sh usable m q kind).getLast? =
        some (.backingFree (morgueAdd m q).1) ∧
      writesBeforeFrees (__asan_deallocate_trace sh usable m q kind)) := by
  constructor
  · constructor
    · simp only [__asan_allocate_trace]
      exact List.getLast?_concat _
    · intro i j ev ev' hi hj hev hev'
      refine writes_then_event (allocWriteEvents p size u o) (.retPtr p)
        (allocWriteEvents_all_writes p size u o) rfl i j ev ev' hi hj hev ?_
      cases ev' <;> first | rfl | cases hev'
  · intro hnc
    have htr : __asan_deallocate_trace sh usable m q kind =
        (List.range (usable q / 8)).map
          (fun k => .shadowWrite (SHADOW q + k) kind) ++
          [.backingFree (morgueAdd m q).1] := by
      simp only [__asan_deallocate_trace]
      rw [if_neg hnc]
    rw [htr]
    constructor
    · exact List.getLast?_concat _
    · intro i j ev ev' hi hj hev hev'
      refine writes_then_event _ (.backingFree (morgueAdd m q).1)
        ?_ rfl i j ev ev' hi hj hev ?_
      · intro x hx
        obtain ⟨k, -, hk⟩ := List.mem_map.mp hx
        rw [← hk]
        rfl
      · cases ev' <;> first | rfl | cases hev'

/-- Witness for C9: concrete allocation (`p = 32`, `n = 13`) and
deallocation (all-zero shadow, usable 24) traces end in the return and the
backing free respectively, with all writes before them. -/
theorem c9_shadow_write_ordering_witness :
    (__asan_allocate_trace (some 32) 13 kAsanHeapUnderrun
      kAsanHeapOverrun).getLast? = some (.retPtr 32) ∧
    writesBeforeRets (__asan_allocate_trace (some 32) 13 kAsanHeapUnderrun
      kAsanHeapOverrun) ∧
    (__asan_deallocate_trace shadowZero (fun _ => 24) morgueEmpty 32
      kAsanHeapFree).getLast? = some (.backingFree 0) ∧
    writesBeforeFrees (__asan_deallocate_trace shadowZero (fun _ => 24)
      morgueEmpty 32 kAsanHeapFree) := by
  have h := c9_shadow_write_ordering 32 13 kAsanHeapUnderrun kAsanHeapOverrun
    shadowZero (fun _ => 24) morgueEmpty 32 kAsanHeapFree
  have h2 := h.2 (by decide)
  refine ⟨h.1.1, h.1.2, ?_, h2.2⟩
  rw [h2.1]
  rfl

/-! ## C10 — malloc_usable_size scan -/

/-- If the scan loop of `__asan_malloc_usable_size` terminates within some
fuel, a negative shadow byte exists at or after the start. -/
theorem usableGo_some_imp_neg (sh : Shadow) :
    ∀ fuel s n r, usableGo sh fuel s n = some r → ∃ k, sh (s + k) < 0 := by
  intro fuel
  induction fuel with
  | zero => intro s n r h; cases h
  | succ fuel ih =>
    intro s n r h
    simp only [usableGo] at h
    split_ifs at h with h1 h2
    · obtain ⟨k, hk⟩ := ih (s + 1) (n + 8) r h
      exact ⟨k + 1, by rw [show s + (k + 1) = s + 1 + k by omega]; exact hk⟩
    · obtain ⟨k, hk⟩ := ih (s + 1) (n + (sh s).toNat % 8) r h
      exact ⟨k + 1, by rw [show s + (k + 1) = s + 1 + k by omega]; exact hk⟩
    · exact ⟨0, by rw [Nat.add_zero]; omega⟩

/-- If some shadow byte at offset `k` from the start is negative, the scan
terminates within `k + 1` iterations. -/
theorem usableGo_neg_imp_some (sh : Shadow) :
    ∀ k s n, sh (s + k) < 0 → ∃ r, usableGo sh (k + 1) s n = some r := by
  intro k
  induction k with
  | zero =>
    intro s n h
    rw [Nat.add_zero] at h
    refine ⟨n, ?_⟩
    simp only [usableGo]
    rw [if_neg (by omega), if_neg (by omega)]
  | succ k ih =>
    intro s n h
    rw [show s + (k + 1) = s + 1 + k by omega] at h
    by_cases h1 : sh s = 0
    · obtain ⟨r, hr⟩ := ih (s + 1) (n + 8) h
      refine ⟨r, ?_⟩
      simp only [usableGo]
      rw [if_pos h1]
      exact hr
    · by_cases h2 : 0 < sh s
      · obtain ⟨r, hr⟩ := ih (s + 1) (n + (sh s).toNat % 8) h
        refine ⟨r, ?_⟩
        simp only [usableGo]
        rw [if_neg h1, if_pos h2]
        exact hr
      · refine ⟨n, ?_⟩
        simp only [usableGo]
        rw [if_neg h1, if_neg h2]

/-- If no shadow byte at or after the start is negative, the scan never
terminates, whatever the fuel. -/
theorem usableGo_nonneg_none (sh : Shadow) :
    ∀ fuel s n, (∀ k, 0 ≤ sh (s + k)) → usableGo sh fuel s n = none := by
  intro fuel
  induction fuel with
  | zero => intro s n _; rfl
  | succ fuel ih =>
    intro s n h
    have h0 : 0 ≤ sh s := by have := h 0; rwa [Nat.add_zero] at this
    simp only [usableGo]
    split_ifs with h1 h2
    · exact ih (s + 1) (n + 8)
        (fun k => by rw [show s + 1 + k = s + (k + 1) by omega]; exact h (k + 1))
    · exact ih (s + 1) (n + (sh s).toNat % 8)
        (fun k => by rw [show s + 1 + k = s + (k + 1) by omega]; exact h (k + 1))
    · omega

/-- C10: the shadow scan of `malloc_usable_size(p)` does not stop at a
positive shadow byte — a zero byte adds 8 and a positive byte adds
`byte & 7`, in both cases continuing at the next byte — and the loop
terminates iff some shadow byte at or after `shadow(p)` is negative; on a
shadow suffix with no negative byte it runs forever. -/
theorem c10_usable_size_scan (sh : Shadow) (vp : Nat) :
    ((∃ fuel r, __asan_malloc_usable_size sh vp fuel = some r) ↔
      ∃ k, sh (SHADOW vp + k) < 0) ∧
    (∀ fuel s n, sh s = 0 →
      usableGo sh (fuel + 1) s n = usableGo sh fuel (s + 1) (n + 8)) ∧
    (∀ fuel s n, 0 < sh s →
      usableGo sh (fuel + 1) s n =
        usableGo sh fuel (s + 1) (n + (sh s).toNat % 8)) ∧
    ((∀ k, 0 ≤ sh (SHADOW vp + k)) →
      ∀ fuel, __asan_malloc_usable_size sh vp fuel = none) := by
  refine ⟨⟨?_, ?_⟩, ?_, ?_, ?_⟩
  · rintro ⟨fuel, r, h⟩
    exact usableGo_some_imp_neg sh fuel (SHADOW vp) 0 r h
  · rintro ⟨k, hk⟩
    obtain ⟨r, hr⟩ := usableGo_neg_imp_some sh k (SHADOW vp) 0 hk
    exact ⟨k + 1, r, hr⟩
  · intro fuel s n h
    simp only [usableGo]
    rw [if_pos h]
  · intro fuel s n h
    simp only [usableGo]
    rw [if_neg (by omega), if_pos h]
  · intro h fuel
    exact usableGo_nonneg_none sh fuel (SHADOW vp) 0 h

/-- Witness for C10: on the sample shadow `[2, 0, -1, 0, ...]` the scan
continues past the positive byte 2 and returns `2 + 8 = 10` with fuel 3;
on the all-zero shadow it returns `none` for any fuel. -/
theorem c10_usable_size_scan_witness :
    shadowSample (kAsanMagic + 2) < 0 ∧
    (∃ fuel r, __asan_malloc_usable_size shadowSample 0 fuel = some r) ∧
    (0 < shadowSample kAsanMagic ∧
      usableGo shadowSample 3 kAsanMagic 0 =
        usableGo shadowSample 2 (kAsanMagic + 1) (0 + (shadowSample kAsanMagic).toNat % 8)) ∧
    __asan_malloc_usable_size shadowSample 0 3 = some 10 ∧
    __asan_malloc_usable_size shadowZero 0 5 = none := by
  have h := c10_usable_size_scan shadowSample 0
  refine ⟨by decide, h.1.mpr ⟨2, by decide⟩, ⟨by decide, ?_⟩, by decide, ?_⟩
  · exact h.2.2.1 2 kAsanMagic 0 (by decide)
  · exact (c10_usable_size_scan shadowZero 0).2.2.2 (fun k => Int.le_refl 0) 5
